import Mathlib

/-!
# Verification of the auth subsystem of the simple-boilerplate API server

Shallow embedding of `src/features/auth/auth.service.ts`,
`src/features/auth/auth.repository.ts` and `src/shared/utils/crypto.ts`.

Conventions of the embedding:
* Timestamps (`Date`) are naturals counting milliseconds; `date-fns`
  helpers `isAfter`, `addMinutes`, `addDays` become Nat arithmetic.
* Character strings that are ever decomposed (passwords, password hashes,
  tokens, token digests) are `List Char`; purely opaque strings (emails,
  names, messages, user agents) stay `String`.
* The Prisma-backed database is an explicit record of lists of rows; each
  repository function is a pure function on that record.  `prisma.$transaction`
  blocks become sequential pure updates (atomicity is inherent).
* Randomness (fresh opaque tokens, Argon2 salts) is threaded in as explicit
  oracle arguments.
* The external cryptographic primitives (Argon2id, SHA-256) are modelled as
  ideal collision-free functions; the wrapper logic around them is translated
  from `src/shared/utils/crypto.ts`.
-/

abbrev Str := List Char

/-- Embedding of the date-fns helper `isAfter a b`: is `a` strictly after `b`. -/
def isAfter (a b : Nat) : Bool := b < a

/-- Embedding of the date-fns helper `addMinutes` on millisecond timestamps. -/
def addMinutes (t m : Nat) : Nat := t + m * 60000

/-- Embedding of the date-fns helper `addDays` on millisecond timestamps. -/
def addDays (t d : Nat) : Nat := t + d * 86400000

/-! ## Credential hasher (`src/shared/utils/crypto.ts`)

`argon2.hash` / `argon2.verify` are external library calls.  They are
modelled ideally: a hash is the PHC-style string
`$argon2id$<salt>$<password>`, where the salt is a nonempty run of
separator-free characters chosen by an oracle, and verification re-derives
the digest (here: the password itself, since the ideal hash is
collision-free) and compares.  `argon2.verify` rejects a string that does
not carry the `$argon2id$` tag by throwing, which the model renders as
`Except.error`. -/

def argon2Tag : Str := "$argon2id$".toList

/-- Model of `argon2.hash(password, type: argon2id)`; the salt oracle
is a natural, rendered as `salt + 1` separator-free characters. -/
def argon2HashRaw (salt : Nat) (password : Str) : Str :=
  argon2Tag ++ (List.replicate (salt + 1) '0' ++ '$' :: password)

/-- Model of `argon2.verify(hash, password)`: `.error` on a string without
the argon2id tag (the library throws on malformed/foreign input),
otherwise structural comparison against the re-derived digest. -/
def argon2Verify (hash password : Str) : Except String Bool :=
  if argon2Tag.isPrefixOf hash then
    let rest := hash.drop argon2Tag.length
    if rest.length < password.length + 2 then .ok false
    else
      let saltPart := rest.take (rest.length - (password.length + 1))
      let tailPart := rest.drop (rest.length - (password.length + 1))
      .ok (!saltPart.isEmpty && saltPart.all (fun c => c != '$') && tailPart == '$' :: password)
  else .error "pchstr must contain a dollar as first char"

/-- Function `hashPassword` from `crypto.ts`: `argon2.hash(password, argon2id)`. -/
def hashPassword (salt : Nat) (password : Str) : Str :=
  argon2HashRaw salt password

/-- Function `verifyPassword` from `crypto.ts`: `try argon2.verify(hash, password)
catch return false`. -/
def verifyPassword (password hash : Str) : Bool :=
  match argon2Verify hash password with
  | .ok b => b
  | .error _ => false

/-- Function `hashToken` from `crypto.ts`: SHA-256 hex digest, modelled as an ideal
(injective) tagging function. -/
def hashToken (token : Str) : Str :=
  "sha256:".toList ++ token

/-! ## Data model (Prisma rows used by the auth feature) -/

structure User where
  id : Nat
  name : String
  email : String
  password : Option Str
  isActive : Bool
  emailVerifiedAt : Option Nat
  failedLoginAttempts : Nat
  lockedUntil : Option Nat
  lastLoginAt : Option Nat
  passwordChangedAt : Option Nat
  deletedAt : Option Nat
deriving Repr, DecidableEq

structure UserSession where
  id : Nat
  userId : Nat
  refreshTokenHash : Str
  userAgent : Option String
  ipAddress : Option String
  expiresAt : Nat
  revokedAt : Option Nat
  deletedAt : Option Nat
deriving Repr, DecidableEq

structure EmailVerificationToken where
  id : Nat
  userId : Nat
  tokenHash : Str
  expiresAt : Nat
  usedAt : Option Nat
deriving Repr, DecidableEq

structure PasswordResetToken where
  id : Nat
  userId : Nat
  tokenHash : Str
  expiresAt : Nat
  usedAt : Option Nat
deriving Repr, DecidableEq

/-- The datastore: one record of row lists, plus id allocators for rows the
auth flows create. -/
structure Db where
  users : List User
  sessions : List UserSession
  emailTokens : List EmailVerificationToken
  resetTokens : List PasswordResetToken
  nextSessionId : Nat
  nextResetTokenId : Nat
deriving Repr, DecidableEq

/-! ## Error taxonomy (`src/shared/errors`) -/

inductive ErrorKind where
  | Conflict
  | Unauthorized
  | Forbidden
  | NotFound
  | Validation
deriving Repr, DecidableEq

structure AppError where
  kind : ErrorKind
  message : String
deriving Repr, DecidableEq

/-! ## Repository (`src/features/auth/auth.repository.ts`) -/

namespace AuthRepo

/-- Repository `findUserByEmail`: `prisma.user.findUnique(where: email)` — no
soft-delete or activity filter. -/
def findUserByEmail (db : Db) (email : String) : Option User :=
  db.users.find? (fun u => u.email == email)

/-- Repository `findUserById`: `prisma.user.findUnique(where: id)` — no soft-delete
or activity filter. -/
def findUserById (db : Db) (id : Nat) : Option User :=
  db.users.find? (fun u => u.id == id)

/-- The partial update object accepted by `updateUserLoginStats`; a missing
field leaves the column unchanged, a present `lockedUntil` may be null. -/
structure LoginStatsUpdate where
  failedLoginAttempts : Option Nat := none
  lockedUntil : Option (Option Nat) := none
  lastLoginAt : Option Nat := none

def applyLoginStats (d : LoginStatsUpdate) (u : User) : User :=
  { u with
    failedLoginAttempts := d.failedLoginAttempts.getD u.failedLoginAttempts
    lockedUntil := d.lockedUntil.getD u.lockedUntil
    lastLoginAt := (d.lastLoginAt.map some).getD u.lastLoginAt }

/-- Repository `updateUserLoginStats`: `prisma.user.update(where: id, data)`. -/
def updateUserLoginStats (db : Db) (userId : Nat) (d : LoginStatsUpdate) : Db :=
  { db with users := db.users.map (fun u => if u.id == userId then applyLoginStats d u else u) }

structure SessionData where
  userId : Nat
  refreshTokenHash : Str
  userAgent : Option String
  ipAddress : Option String
  expiresAt : Nat

/-- Repository `createSession`: `prisma.userSession.create` (fresh id, not revoked,
not deleted). -/
def createSession (db : Db) (d : SessionData) : UserSession × Db :=
  let s : UserSession :=
    { id := db.nextSessionId
      userId := d.userId
      refreshTokenHash := d.refreshTokenHash
      userAgent := d.userAgent
      ipAddress := d.ipAddress
      expiresAt := d.expiresAt
      revokedAt := none
      deletedAt := none }
  (s, { db with sessions := db.sessions ++ [s], nextSessionId := db.nextSessionId + 1 })

/-- Repository `findSessionByHash`: `prisma.userSession.findFirst` filtering on the
hash and on `revokedAt: null`, `deletedAt: null`. -/
def findSessionByHash (db : Db) (refreshTokenHash : Str) : Option UserSession :=
  db.sessions.find? (fun s =>
    s.refreshTokenHash == refreshTokenHash && s.revokedAt == none && s.deletedAt == none)

/-- Repository `revokeSession`: `prisma.userSession.update(where: id, revokedAt: now)`. -/
def revokeSession (db : Db) (sessionId : Nat) (now : Nat) : Db :=
  { db with sessions := db.sessions.map (fun s =>
      if s.id == sessionId then { s with revokedAt := some now } else s) }

/-- Repository `rotateSession`: one transaction revoking the old session and creating
the new one. -/
def rotateSession (db : Db) (oldSessionId : Nat) (d : SessionData) (now : Nat) :
    UserSession × Db :=
  let db1 := revokeSession db oldSessionId now
  createSession db1 d

/-- Repository `createPasswordResetToken`: `prisma.passwordResetToken.create`. -/
def createPasswordResetToken (db : Db) (userId : Nat) (tokenHash : Str) (expiresAt : Nat) :
    PasswordResetToken × Db :=
  let t : PasswordResetToken :=
    { id := db.nextResetTokenId
      userId := userId
      tokenHash := tokenHash
      expiresAt := expiresAt
      usedAt := none }
  (t, { db with resetTokens := db.resetTokens ++ [t], nextResetTokenId := db.nextResetTokenId + 1 })

/-- Repository `findPasswordResetToken`: `findUnique(where: tokenHash, include: user)`.
The `include` join is modelled by a lookup of the owning user; in a
well-formed database the foreign key makes that lookup succeed. -/
def findPasswordResetToken (db : Db) (tokenHash : Str) :
    Option (PasswordResetToken × User) :=
  match db.resetTokens.find? (fun t => t.tokenHash == tokenHash) with
  | none => none
  | some t =>
    match db.users.find? (fun u => u.id == t.userId) with
    | none => none
    | some u => some (t, u)

/-- Repository `resetPassword`: one transaction that rewrites the stored user
credentials, consumes the token, and revokes every active session of the
user. -/
def resetPassword (db : Db) (userId tokenId : Nat) (newHashedPassword : Str) (now : Nat) : Db :=
  { db with
    users := db.users.map (fun u =>
      if u.id == userId then
        { u with
          password := some newHashedPassword
          passwordChangedAt := some now
          failedLoginAttempts := 0
          lockedUntil := none }
      else u)
    resetTokens := db.resetTokens.map (fun t =>
      if t.id == tokenId then { t with usedAt := some now } else t)
    sessions := db.sessions.map (fun s =>
      if s.userId == userId && s.revokedAt == none then { s with revokedAt := some now } else s) }

/-- Repository `findEmailVerificationToken`: `findUnique(where: tokenHash)`. -/
def findEmailVerificationToken (db : Db) (tokenHash : Str) : Option EmailVerificationToken :=
  db.emailTokens.find? (fun t => t.tokenHash == tokenHash)

/-- Repository `verifyEmail`: one transaction stamping the owning user
`emailVerifiedAt` and consuming the token. -/
def verifyEmail (db : Db) (userId tokenId : Nat) (now : Nat) : Db :=
  { db with
    users := db.users.map (fun u =>
      if u.id == userId then { u with emailVerifiedAt := some now } else u)
    emailTokens := db.emailTokens.map (fun t =>
      if t.id == tokenId then { t with usedAt := some now } else t) }

end AuthRepo

/-! ## Service layer (`src/features/auth/auth.service.ts`) -/

namespace AuthService

/-- The configuration surface consumed by the auth service
(`config.auth` in `src/config/index.ts`). -/
structure Config where
  maxLoginAttempts : Nat
  lockDurationMinutes : Nat
  refreshTokenExpiresDays : Nat
  emailTokenExpiresMinutes : Nat
  passwordResetTokenExpiresMinutes : Nat
deriving Repr, DecidableEq

/-- The defaults from `src/config/index.ts`. -/
def defaultConfig : Config :=
  { maxLoginAttempts := 5
    lockDurationMinutes := 15
    refreshTokenExpiresDays := 7
    emailTokenExpiresMinutes := 1440
    passwordResetTokenExpiresMinutes := 60 }

structure UserSessionPayload where
  userId : Nat
  sessionId : Nat
  role : String
deriving Repr, DecidableEq

/-- Here `jwt.sign` is modelled as the signed payload itself (the signature and
encoding are external to this subsystem). -/
structure AuthTokens where
  accessToken : UserSessionPayload
  refreshToken : Str
deriving Repr, DecidableEq

structure LoginInput where
  email : String
  password : Str
  userAgent : Option String := none
  ipAddress : Option String := none

structure RefreshInput where
  refreshToken : Str
  userAgent : Option String := none
  ipAddress : Option String := none

/-- Outcome of `login`: the thrown error or returned tokens, the datastore
after the call, and how many `verifyPassword` computations the call
performed (instrumentation for the timing-parity property). -/
structure LoginOutcome where
  result : Except AppError AuthTokens
  db : Db
  verifyCalls : Nat
deriving Repr

/-- The message of the lock error:
``Account locked until (lockedUntil.toISOString)``. -/
def lockedMessage (l : Nat) : String :=
  "Account locked until " ++ toString l

/-- The tail of `login` after the `user.lockedUntil` guard: the
`user.password` null check, password verification, the failure branch
updating the failed-attempt counter/lock, and the success branch creating
the session and tokens. -/
def loginAfterGuards (cfg : Config) (db : Db) (input : LoginInput) (user : User)
    (now : Nat) (freshRefreshToken : Str) : LoginOutcome :=
  match user.password with
  | none => ⟨.error ⟨.Unauthorized, "Invalid credentials"⟩, db, 0⟩
  | some pw =>
    if verifyPassword input.password pw then
      let db1 := AuthRepo.updateUserLoginStats db user.id
        { failedLoginAttempts := some 0, lockedUntil := some none, lastLoginAt := some now }
      let refreshToken := freshRefreshToken
      let refreshTokenHash := hashToken refreshToken
      let expiresAt := addDays now cfg.refreshTokenExpiresDays
      let sdb := AuthRepo.createSession db1
        { userId := user.id
          refreshTokenHash := refreshTokenHash
          userAgent := input.userAgent
          ipAddress := input.ipAddress
          expiresAt := expiresAt }
      let accessToken : UserSessionPayload :=
        { userId := user.id, sessionId := sdb.1.id, role := "user" }
      ⟨.ok { accessToken := accessToken, refreshToken := refreshToken }, sdb.2, 1⟩
    else
      let attempts := user.failedLoginAttempts + 1
      let lockedUntil : Option Nat :=
        if attempts ≥ cfg.maxLoginAttempts then some (addMinutes now cfg.lockDurationMinutes)
        else none
      let db1 := AuthRepo.updateUserLoginStats db user.id
        { failedLoginAttempts := some attempts, lockedUntil := some lockedUntil }
      ⟨.error ⟨.Unauthorized, "Invalid credentials"⟩, db1, 1⟩

/-- Service `login` from `auth.service.ts`.  `freshRefreshToken` is the oracle for
`generateRefreshToken()`. -/
def login (cfg : Config) (db : Db) (input : LoginInput) (now : Nat)
    (freshRefreshToken : Str) : LoginOutcome :=
  match AuthRepo.findUserByEmail db input.email with
  | none => ⟨.error ⟨.Unauthorized, "Invalid credentials"⟩, db, 0⟩
  | some user =>
    if user.deletedAt.isSome then
      ⟨.error ⟨.Forbidden, "Account is disabled"⟩, db, 0⟩
    else if user.isActive = false then
      ⟨.error ⟨.Forbidden, "Account is inactive"⟩, db, 0⟩
    else
      match user.lockedUntil with
      | some l =>
        if isAfter l now then ⟨.error ⟨.Forbidden, lockedMessage l⟩, db, 0⟩
        else loginAfterGuards cfg db input user now freshRefreshToken
      | none => loginAfterGuards cfg db input user now freshRefreshToken

/-- Service `refresh` from `auth.service.ts`.  `freshRefreshToken` is the oracle for
`generateRefreshToken()`. -/
def refresh (cfg : Config) (db : Db) (input : RefreshInput) (now : Nat)
    (freshRefreshToken : Str) : Except AppError AuthTokens × Db :=
  let refreshTokenHash := hashToken input.refreshToken
  match AuthRepo.findSessionByHash db refreshTokenHash with
  | none => (.error ⟨.Unauthorized, "Invalid refresh token"⟩, db)
  | some session =>
    if isAfter now session.expiresAt then
      (.error ⟨.Unauthorized, "Session expired"⟩, db)
    else if session.revokedAt.isSome || session.deletedAt.isSome then
      (.error ⟨.Unauthorized, "Session revoked"⟩, db)
    else
      let newRefreshToken := freshRefreshToken
      let newRefreshTokenHash := hashToken newRefreshToken
      let newExpiresAt := addDays now cfg.refreshTokenExpiresDays
      let sdb := AuthRepo.rotateSession db session.id
        { userId := session.userId
          refreshTokenHash := newRefreshTokenHash
          userAgent := input.userAgent.orElse (fun _ => session.userAgent)
          ipAddress := input.ipAddress.orElse (fun _ => session.ipAddress)
          expiresAt := newExpiresAt } now
      let accessToken : UserSessionPayload :=
        { userId := session.userId, sessionId := sdb.1.id, role := "user" }
      (.ok { accessToken := accessToken, refreshToken := newRefreshToken }, sdb.2)

/-- Service `verifyEmail` from `auth.service.ts`. -/
def verifyEmail (db : Db) (token : Str) (now : Nat) : Except AppError Unit × Db :=
  let tokenHash := hashToken token
  match AuthRepo.findEmailVerificationToken db tokenHash with
  | none => (.error ⟨.NotFound, "Invalid verification token"⟩, db)
  | some tokenRecord =>
    if tokenRecord.usedAt.isSome then
      (.error ⟨.Validation, "Token already used"⟩, db)
    else if isAfter now tokenRecord.expiresAt then
      (.error ⟨.Validation, "Token expired"⟩, db)
    else
      (.ok (), AuthRepo.verifyEmail db tokenRecord.userId tokenRecord.id now)

/-- The user record with the password hash stripped, as destructured in
`getProfile`. -/
structure Profile where
  id : Nat
  name : String
  email : String
  isActive : Bool
  emailVerifiedAt : Option Nat
  failedLoginAttempts : Nat
  lockedUntil : Option Nat
  lastLoginAt : Option Nat
  passwordChangedAt : Option Nat
  deletedAt : Option Nat
deriving Repr, DecidableEq

def stripPassword (u : User) : Profile :=
  { id := u.id
    name := u.name
    email := u.email
    isActive := u.isActive
    emailVerifiedAt := u.emailVerifiedAt
    failedLoginAttempts := u.failedLoginAttempts
    lockedUntil := u.lockedUntil
    lastLoginAt := u.lastLoginAt
    passwordChangedAt := u.passwordChangedAt
    deletedAt := u.deletedAt }

/-- Service `getProfile` from `auth.service.ts` (read-only, so the datastore is not
returned). -/
def getProfile (db : Db) (userId : Nat) : Except AppError Profile :=
  match AuthRepo.findUserById db userId with
  | none => .error ⟨.NotFound, "User not found"⟩
  | some user => .ok (stripPassword user)

/-- Service `forgotPassword` from `auth.service.ts`: returns the datastore after
the call and the number of `verifyPassword` computations performed.
`freshToken` is the oracle for `generateRandomToken()`. -/
def forgotPassword (cfg : Config) (db : Db) (email : String) (now : Nat)
    (freshToken : Str) : Db × Nat :=
  match AuthRepo.findUserByEmail db email with
  | none => (db, 0)
  | some user =>
    let tokenHash := hashToken freshToken
    let expiresAt := addMinutes now cfg.passwordResetTokenExpiresMinutes
    let tdb := AuthRepo.createPasswordResetToken db user.id tokenHash expiresAt
    (tdb.2, 0)

/-- Service `resetPassword` from `auth.service.ts`.  `salt` is the oracle consumed
by `hashPassword`. -/
def resetPassword (db : Db) (token : Str) (newPassword : Str) (now : Nat)
    (salt : Nat) : Except AppError Unit × Db :=
  let tokenHash := hashToken token
  match AuthRepo.findPasswordResetToken db tokenHash with
  | none => (.error ⟨.NotFound, "Invalid or expired reset token"⟩, db)
  | some tu =>
    if tu.1.usedAt.isSome || isAfter now tu.1.expiresAt then
      (.error ⟨.Validation, "Invalid or expired reset token"⟩, db)
    else
      let hashedPassword := hashPassword salt newPassword
      (.ok (), AuthRepo.resetPassword db tu.2.id tu.1.id hashedPassword now)

end AuthService

/-! ## Concrete instances used by witnesses and counterexamples -/

/-- A soft-deleted but otherwise healthy user. -/
def softDeletedUser : User :=
  { id := 1
    name := "Dana"
    email := "dana@example.com"
    password := some (hashPassword 1 "pw12345".toList)
    isActive := true
    emailVerifiedAt := some 500
    failedLoginAttempts := 0
    lockedUntil := none
    lastLoginAt := none
    passwordChangedAt := none
    deletedAt := some 1000 }

/-- A database whose only user is soft-deleted. -/
def softDeletedDb : Db :=
  { users := [softDeletedUser]
    sessions := []
    emailTokens := []
    resetTokens := []
    nextSessionId := 1
    nextResetTokenId := 1 }

/-- The owner of the sample email-verification tokens. -/
def emailVerifyUser : User :=
  { id := 2
    name := "Vera"
    email := "vera@example.com"
    password := some (hashPassword 2 "pw12345".toList)
    isActive := true
    emailVerifiedAt := none
    failedLoginAttempts := 0
    lockedUntil := none
    lastLoginAt := none
    passwordChangedAt := none
    deletedAt := none }

/-- A fresh, unexpired email-verification token. -/
def sampleEmailToken : EmailVerificationToken :=
  { id := 1, userId := 2, tokenHash := hashToken "evtoken".toList
    expiresAt := 10000, usedAt := none }

/-- A consumed email-verification token that is also past its expiry. -/
def usedEmailToken : EmailVerificationToken :=
  { id := 2, userId := 2, tokenHash := hashToken "usedtoken".toList
    expiresAt := 500, usedAt := some 100 }

/-- An unused but expired email-verification token. -/
def expiredEmailToken : EmailVerificationToken :=
  { id := 3, userId := 2, tokenHash := hashToken "oldtoken".toList
    expiresAt := 500, usedAt := none }

def emailDb : Db :=
  { users := [emailVerifyUser]
    sessions := []
    emailTokens := [sampleEmailToken, usedEmailToken, expiredEmailToken]
    resetTokens := []
    nextSessionId := 1
    nextResetTokenId := 1 }

/-- A password-less (OAuth-style) user. -/
def oauthUser : User :=
  { id := 3
    name := "Oscar"
    email := "oscar@example.com"
    password := none
    isActive := true
    emailVerifiedAt := some 1
    failedLoginAttempts := 0
    lockedUntil := none
    lastLoginAt := none
    passwordChangedAt := none
    deletedAt := none }

def oauthDb : Db :=
  { users := [oauthUser]
    sessions := []
    emailTokens := []
    resetTokens := []
    nextSessionId := 1
    nextResetTokenId := 1 }

/-- Password hash of the healthy sample user. -/
def aliceHash : Str := hashPassword 3 "correct-horse".toList

/-- A healthy, active user with a known password hash. -/
def aliceUser : User :=
  { id := 4
    name := "Alice"
    email := "alice@example.com"
    password := some aliceHash
    isActive := true
    emailVerifiedAt := some 10
    failedLoginAttempts := 0
    lockedUntil := none
    lastLoginAt := none
    passwordChangedAt := none
    deletedAt := none }

def aliceDb : Db :=
  { users := [aliceUser]
    sessions := []
    emailTokens := []
    resetTokens := []
    nextSessionId := 1
    nextResetTokenId := 1 }

/-- Password hash of the user who is one failed attempt away from lockout. -/
def bobHash : Str := hashPassword 2 "right-pw".toList

/-- A user with four failed attempts (one below the default maximum of 5). -/
def bobUser : User :=
  { id := 5
    name := "Bob"
    email := "bob@example.com"
    password := some bobHash
    isActive := true
    emailVerifiedAt := some 10
    failedLoginAttempts := 4
    lockedUntil := none
    lastLoginAt := none
    passwordChangedAt := none
    deletedAt := none }

def bobDb : Db :=
  { users := [bobUser]
    sessions := []
    emailTokens := []
    resetTokens := []
    nextSessionId := 1
    nextResetTokenId := 1 }

/-- Password hash of the already-locked-out user. -/
def carolHash : Str := hashPassword 5 "carol-pw".toList

/-- A user whose failed-attempt counter already reached the default maximum
and whose lock has elapsed. -/
def carolUser : User :=
  { id := 6
    name := "Carol"
    email := "carol@example.com"
    password := some carolHash
    isActive := true
    emailVerifiedAt := some 10
    failedLoginAttempts := 5
    lockedUntil := some 500
    lastLoginAt := none
    passwordChangedAt := none
    deletedAt := none }

def carolDb : Db :=
  { users := [carolUser]
    sessions := []
    emailTokens := []
    resetTokens := []
    nextSessionId := 1
    nextResetTokenId := 1 }

/-- An active session for Alice, keyed by the hash of raw token
"refresh-1". -/
def aliceSession : UserSession :=
  { id := 10
    userId := 4
    refreshTokenHash := hashToken "refresh-1".toList
    userAgent := none
    ipAddress := none
    expiresAt := 100000
    revokedAt := none
    deletedAt := none }

def sessionDb : Db :=
  { users := [aliceUser]
    sessions := [aliceSession]
    emailTokens := []
    resetTokens := []
    nextSessionId := 11
    nextResetTokenId := 1 }

/-- An unused, unexpired password-reset token for Alice. -/
def aliceResetToken : PasswordResetToken :=
  { id := 1
    userId := 4
    tokenHash := hashToken "reset-1".toList
    expiresAt := 50000
    usedAt := none }

/-- Alice, her active session, and her pending reset token. -/
def resetDb : Db :=
  { users := [aliceUser]
    sessions := [aliceSession]
    emailTokens := []
    resetTokens := [aliceResetToken]
    nextSessionId := 11
    nextResetTokenId := 2 }

/-! ## Helper lemmas -/

theorem isPrefixOf_append_self (l₁ l₂ : Str) : l₁.isPrefixOf (l₁ ++ l₂) = true := by
  induction l₁ with
  | nil => simp [List.isPrefixOf]
  | cons a t ih => simp [List.isPrefixOf, ih]

/-- On a well-formed hash produced by the Argon2id model, verification
succeeds exactly for the hashed password. -/
theorem argon2Verify_hashPassword (salt : Nat) (p q : Str) :
    argon2Verify (hashPassword salt p) q = .ok (q == p) := by
  have hpre := isPrefixOf_append_self argon2Tag (List.replicate (salt + 1) '0' ++ '$' :: p)
  rw [hashPassword, argon2HashRaw, argon2Verify, if_pos hpre]
  simp only [List.drop_left, List.length_append, List.length_replicate, List.length_cons]
  by_cases hlen : salt + 1 + (p.length + 1) < q.length + 2
  · rw [if_pos hlen]
    have hne : (q == p) = false := by
      rw [beq_eq_false_iff_ne]
      intro he
      subst he
      omega
    rw [hne]
  · rw [if_neg hlen]
    by_cases hpq : q = p
    · subst hpq
      have hj : salt + 1 + (q.length + 1) - (q.length + 1) = salt + 1 := by omega
      rw [hj, List.take_left' (by simp), List.drop_left' (by simp)]
      simp [List.replicate_succ, List.all_eq_true, List.mem_replicate]
    · have hne : (q == p) = false := by rw [beq_eq_false_iff_ne]; exact hpq
      rw [hne]
      rcases Nat.lt_trichotomy q.length p.length with hq | hq | hq
      · -- candidate shorter than the stored password: the salt slice spills
        -- over the separator, so the separator-free check fails
        obtain ⟨k, hk⟩ : ∃ k, p.length - q.length = k + 1 :=
          ⟨p.length - q.length - 1, by omega⟩
        have hj : salt + 1 + (p.length + 1) - (q.length + 1) = salt + 1 + (k + 1) := by omega
        rw [hj, List.take_append_eq_append_take,
          List.take_of_length_le (by simp)]
        simp only [List.length_replicate]
        have h2 : salt + 1 + (k + 1) - (salt + 1) = k + 1 := by omega
        rw [h2, List.take_succ_cons]
        simp [List.all_append]
      · -- same length, different content: the digest comparison fails
        have hj : salt + 1 + (p.length + 1) - (q.length + 1) = salt + 1 := by omega
        rw [hj, List.drop_left' (by simp)]
        have htail : (('$' :: p) == '$' :: q) = false := by
          rw [beq_eq_false_iff_ne]
          intro he
          rw [List.cons.injEq] at he
          exact hpq he.2.symm
        rw [htail, Bool.and_false]
      · -- candidate longer: the digest slice starts inside the salt run
        obtain ⟨k, hk⟩ : ∃ k, salt + 1 - (salt + 1 + (p.length + 1) - (q.length + 1)) = k + 1 :=
          ⟨salt - (salt + 1 + (p.length + 1) - (q.length + 1)), by omega⟩
        have h0 : salt + 1 + (p.length + 1) - (q.length + 1) - (salt + 1) = 0 := by omega
        rw [List.drop_append_eq_append_drop, List.drop_replicate, List.length_replicate, h0,
          List.drop_zero, hk]
        have htail : ((List.replicate (k + 1) '0' ++ '$' :: p) == '$' :: q) = false := by
          rw [List.replicate_succ, List.cons_append, beq_eq_false_iff_ne]
          intro he
          rw [List.cons.injEq] at he
          exact absurd he.1 (by decide)
        rw [htail, Bool.and_false]

/-- Verification against a well-formed hash tests equality with the
hashed password. -/
theorem verifyPassword_hashPassword (salt : Nat) (p q : Str) :
    verifyPassword q (hashPassword salt p) = (q == p) := by
  rw [verifyPassword, argon2Verify_hashPassword]

/-- A string without the Argon2id tag makes the library model throw, and
the `verifyPassword` wrapper turns that into `false`. -/
theorem verifyPassword_malformed (p hash : Str)
    (h : argon2Tag.isPrefixOf hash = false) :
    argon2Verify hash p = .error "pchstr must contain a dollar as first char" ∧
      verifyPassword p hash = false := by
  have herr : argon2Verify hash p = .error "pchstr must contain a dollar as first char" := by
    rw [argon2Verify, if_neg]
    rw [h]
    simp
  exact ⟨herr, by rw [verifyPassword, herr]⟩

/-- C8: round-trip — `verifyPassword` accepts the original plaintext against
the output of `hashPassword`, rejects every other plaintext, and returns `false`
(without throwing) on a malformed or foreign-format hash, for which the
underlying library verification errors out. -/
theorem c8_verifyPassword_roundtrip (salt : Nat) (p q h : Str)
    (hq : q ≠ p) (hh : argon2Tag.isPrefixOf h = false) :
    verifyPassword p (hashPassword salt p) = true ∧
      verifyPassword q (hashPassword salt p) = false ∧
      (verifyPassword p h = false ∧
        argon2Verify h p = .error "pchstr must contain a dollar as first char") := by
  refine ⟨?_, ?_, ?_, ?_⟩
  · rw [verifyPassword_hashPassword]
    exact beq_self_eq_true p
  · rw [verifyPassword_hashPassword, beq_eq_false_iff_ne]
    exact hq
  · exact (verifyPassword_malformed p h hh).2
  · exact (verifyPassword_malformed p h hh).1

/-- C8 witness: concrete instances of all three parts. -/
theorem c8_verifyPassword_roundtrip_witness :
    verifyPassword "hunter2".toList (hashPassword 4 "hunter2".toList) = true ∧
      verifyPassword "hunter3".toList (hashPassword 4 "hunter2".toList) = false ∧
      (verifyPassword "hunter2".toList "$2b$10$bcryptstylehash".toList = false ∧
        argon2Verify "$2b$10$bcryptstylehash".toList "hunter2".toList =
          .error "pchstr must contain a dollar as first char") :=
  c8_verifyPassword_roundtrip 4 "hunter2".toList "hunter3".toList
    "$2b$10$bcryptstylehash".toList (by decide) (by decide)

theorem findPres_map {α : Type} (f : α → α) (p : α → Bool) (l : List α)
    (hf : ∀ x, p (f x) = p x) :
    ∀ a, l.find? p = some a → (l.map f).find? p = some (f a) := by
  induction l with
  | nil => intro a h; simp [List.find?] at h
  | cons x xs ih =>
    intro a h
    by_cases hx : p x = true
    · rw [List.find?_cons_of_pos _ hx] at h
      cases h
      rw [List.map_cons, List.find?_cons_of_pos]
      rw [hf]
      exact hx
    · rw [List.find?_cons_of_neg _ hx] at h
      rw [List.map_cons, List.find?_cons_of_neg]
      · exact ih a h
      · rw [hf]; exact hx

theorem findNone_map {α : Type} (f : α → α) (p : α → Bool) (l : List α)
    (hf : ∀ x, p (f x) = p x) (h : l.find? p = none) : (l.map f).find? p = none := by
  rw [List.find?_eq_none] at h ⊢
  intro a ha
  obtain ⟨b, hb, rfl⟩ := List.mem_map.mp ha
  rw [hf]
  exact h b hb

theorem findAppend {α : Type} (p : α → Bool) (l₁ l₂ : List α) :
    (l₁ ++ l₂).find? p = (l₁.find? p).orElse (fun _ => l₂.find? p) := by
  induction l₁ with
  | nil => simp [Option.orElse]
  | cons x xs ih =>
    by_cases hx : p x = true
    · rw [List.cons_append, List.find?_cons_of_pos _ hx, List.find?_cons_of_pos _ hx]
      rfl
    · rw [List.cons_append, List.find?_cons_of_neg _ hx, List.find?_cons_of_neg _ hx, ih]

/-! ## C7: getProfile and soft-deleted users -/

/-- C7 counterexample: `getProfile` on a soft-deleted user does not fail with
`NotFound` — it returns the (password-stripped) record, because neither
`findUserById` nor `getProfile` filters on `deletedAt`. -/
theorem c7_counterexample :
    softDeletedUser.deletedAt = some 1000 ∧
      AuthService.getProfile softDeletedDb 1 =
        .ok (AuthService.stripPassword softDeletedUser) :=
  ⟨rfl, rfl⟩

/-- C7 (amended): `getProfile(userId)` fails with `NotFound` exactly when no
user row has that id; any found user — soft-deleted or not — is returned
with the password hash stripped. -/
theorem c7_getProfile (db : Db) (userId : Nat) :
    (AuthRepo.findUserById db userId = none →
      AuthService.getProfile db userId = .error ⟨.NotFound, "User not found"⟩) ∧
    (∀ u, AuthRepo.findUserById db userId = some u →
      AuthService.getProfile db userId = .ok (AuthService.stripPassword u)) := by
  constructor
  · intro h
    rw [AuthService.getProfile, h]
  · intro u h
    rw [AuthService.getProfile, h]

/-- C7 witness: the amended theorem at a missing id and at the soft-deleted
soft-deleted user id. -/
theorem c7_getProfile_witness :
    AuthService.getProfile softDeletedDb 2 = .error ⟨.NotFound, "User not found"⟩ ∧
      AuthService.getProfile softDeletedDb 1 =
        .ok (AuthService.stripPassword softDeletedUser) :=
  ⟨(c7_getProfile softDeletedDb 2).1 rfl,
    (c7_getProfile softDeletedDb 1).2 softDeletedUser rfl⟩

/-! ## C6: verifyEmail -/

/-- C6: `verifyEmail` fails `NotFound` when no token record matches the
hashed input, `Validation` ("Token already used") when the record is
consumed — checked before expiry, so a used-and-expired token still reports
"already used" — and `Validation` ("Token expired") when unexpired-ness
fails; a valid token atomically stamps the user field `emailVerifiedAt` and
marks the token used, so a second call with the same raw token fails with
`Validation` ("Token already used"). -/
theorem c6_verifyEmail (db : Db) (token : Str) (now : Nat) :
    (AuthRepo.findEmailVerificationToken db (hashToken token) = none →
      AuthService.verifyEmail db token now =
        (.error ⟨.NotFound, "Invalid verification token"⟩, db)) ∧
    (∀ tok t0, AuthRepo.findEmailVerificationToken db (hashToken token) = some tok →
      tok.usedAt = some t0 →
      AuthService.verifyEmail db token now = (.error ⟨.Validation, "Token already used"⟩, db)) ∧
    (∀ tok, AuthRepo.findEmailVerificationToken db (hashToken token) = some tok →
      tok.usedAt = none → isAfter now tok.expiresAt = true →
      AuthService.verifyEmail db token now = (.error ⟨.Validation, "Token expired"⟩, db)) ∧
    (∀ tok, AuthRepo.findEmailVerificationToken db (hashToken token) = some tok →
      tok.usedAt = none → isAfter now tok.expiresAt = false →
      (AuthService.verifyEmail db token now).1 = .ok () ∧
      (∀ u, AuthRepo.findUserById db tok.userId = some u →
        AuthRepo.findUserById (AuthService.verifyEmail db token now).2 tok.userId =
          some { u with emailVerifiedAt := some now }) ∧
      (∀ now', AuthService.verifyEmail (AuthService.verifyEmail db token now).2 token now' =
        (.error ⟨.Validation, "Token already used"⟩, (AuthService.verifyEmail db token now).2))) := by
  refine ⟨?_, ?_, ?_, ?_⟩
  · intro h
    rw [AuthService.verifyEmail, h]
  · intro tok t0 h hused
    rw [AuthService.verifyEmail, h]
    simp [hused]
  · intro tok h hused hexp
    rw [AuthService.verifyEmail, h]
    simp [hused, hexp]
  · intro tok h hused hexp
    have hres : AuthService.verifyEmail db token now =
        (.ok (), AuthRepo.verifyEmail db tok.userId tok.id now) := by
      rw [AuthService.verifyEmail, h]
      simp [hused, hexp]
    refine ⟨by rw [hres], ?_, ?_⟩
    · intro u hu
      rw [hres]
      rw [AuthRepo.verifyEmail] at *
      rw [AuthRepo.findUserById] at hu ⊢
      simp only
      have hu' := List.find?_some hu
      have hmain := findPres_map
        (fun v => if v.id == tok.userId then { v with emailVerifiedAt := some now } else v)
        (fun v => v.id == tok.userId) db.users
        (by intro x; by_cases hx : (x.id == tok.userId) = true <;> simp [hx]) u hu
      simpa [hu'] using hmain
    · intro now'
      rw [hres]
      have hfind : AuthRepo.findEmailVerificationToken
          (AuthRepo.verifyEmail db tok.userId tok.id now) (hashToken token) =
          some { tok with usedAt := some now } := by
        rw [AuthRepo.findEmailVerificationToken] at h ⊢
        rw [AuthRepo.verifyEmail]
        simp only
        have := findPres_map (fun t => if t.id == tok.id then { t with usedAt := some now } else t)
          (fun t => t.tokenHash == hashToken token) db.emailTokens
          (by intro x; by_cases hx : x.id == tok.id <;> simp [hx]) tok h
        simpa using this
      rw [AuthService.verifyEmail, hfind]
      simp

/-- C6 witness: all four branches exercised on `emailDb` at time 1000. -/
theorem c6_verifyEmail_witness :
    AuthService.verifyEmail emailDb "missing".toList 1000 =
      (.error ⟨.NotFound, "Invalid verification token"⟩, emailDb) ∧
    AuthService.verifyEmail emailDb "usedtoken".toList 1000 =
      (.error ⟨.Validation, "Token already used"⟩, emailDb) ∧
    AuthService.verifyEmail emailDb "oldtoken".toList 1000 =
      (.error ⟨.Validation, "Token expired"⟩, emailDb) ∧
    (AuthService.verifyEmail emailDb "evtoken".toList 1000).1 = .ok () ∧
    AuthRepo.findUserById (AuthService.verifyEmail emailDb "evtoken".toList 1000).2 2 =
      some { emailVerifyUser with emailVerifiedAt := some 1000 } ∧
    AuthService.verifyEmail (AuthService.verifyEmail emailDb "evtoken".toList 1000).2
        "evtoken".toList 2000 =
      (.error ⟨.Validation, "Token already used"⟩,
        (AuthService.verifyEmail emailDb "evtoken".toList 1000).2) :=
  ⟨(c6_verifyEmail emailDb "missing".toList 1000).1 rfl,
   (c6_verifyEmail emailDb "usedtoken".toList 1000).2.1 usedEmailToken 100 rfl rfl,
   (c6_verifyEmail emailDb "oldtoken".toList 1000).2.2.1 expiredEmailToken rfl rfl rfl,
   ((c6_verifyEmail emailDb "evtoken".toList 1000).2.2.2 sampleEmailToken rfl rfl rfl).1,
   ((c6_verifyEmail emailDb "evtoken".toList 1000).2.2.2 sampleEmailToken rfl rfl rfl).2.1
     emailVerifyUser rfl,
   ((c6_verifyEmail emailDb "evtoken".toList 1000).2.2.2 sampleEmailToken rfl rfl rfl).2.2 2000⟩

/-! ## C9: login for a user with no stored password hash -/

/-- C9: for an active, non-deleted, non-locked user whose stored password
hash is null, `login` fails with the generic `Unauthorized` message, performs
no password verification, and leaves the datastore untouched. -/
theorem c9_login_nullPassword (cfg : AuthService.Config) (db : Db)
    (input : AuthService.LoginInput) (now : Nat) (tok : Str) (u : User)
    (hfind : AuthRepo.findUserByEmail db input.email = some u)
    (hdel : u.deletedAt = none) (hact : u.isActive = true)
    (hlock : ∀ l, u.lockedUntil = some l → isAfter l now = false)
    (hpw : u.password = none) :
    AuthService.login cfg db input now tok =
      ⟨.error ⟨.Unauthorized, "Invalid credentials"⟩, db, 0⟩ := by
  have hguards : AuthService.loginAfterGuards cfg db input u now tok =
      ⟨.error ⟨.Unauthorized, "Invalid credentials"⟩, db, 0⟩ := by
    rw [AuthService.loginAfterGuards, hpw]
  rw [AuthService.login, hfind]
  cases hcase : u.lockedUntil with
  | none => simp [hdel, hact, hcase, hguards]
  | some l => simp [hdel, hact, hcase, hguards, hlock l hcase]

/-- C9 witness: the password-less user of `oauthDb`. -/
theorem c9_login_nullPassword_witness :
    AuthService.login AuthService.defaultConfig oauthDb
      ⟨"oscar@example.com", "whatever".toList, none, none⟩ 1000 "t".toList =
      ⟨.error ⟨.Unauthorized, "Invalid credentials"⟩, oauthDb, 0⟩ :=
  c9_login_nullPassword AuthService.defaultConfig oauthDb
    ⟨"oscar@example.com", "whatever".toList, none, none⟩ 1000 "t".toList oauthUser
    rfl rfl rfl (fun _ h => Option.noConfusion h) rfl

/-! ## C1: no dummy verification on the user-not-found paths -/

/-- C1 counterexample: with no user for the given email, `login` and
`forgotPassword` both finish with zero password-verification computations —
no dummy verify is performed on the user-not-found path. -/
theorem c1_counterexample :
    AuthRepo.findUserByEmail softDeletedDb "ghost@example.com" = none ∧
      (AuthService.login AuthService.defaultConfig softDeletedDb
        ⟨"ghost@example.com", "pw12345".toList, none, none⟩ 1000 "t".toList).verifyCalls = 0 ∧
      (AuthService.forgotPassword AuthService.defaultConfig softDeletedDb
        "ghost@example.com" 1000 "t".toList).2 = 0 :=
  ⟨rfl, rfl, rfl⟩

/-- C1 (amended): when the user lookup by email finds no user, `login`
throws the generic `Unauthorized` error immediately and `forgotPassword`
returns silently; neither path performs any password-verification-shaped
computation and neither touches the datastore. -/
theorem c1_no_dummy_verify (cfg : AuthService.Config) (db : Db)
    (input : AuthService.LoginInput) (email : String) (now : Nat) (tok tok2 : Str)
    (h1 : AuthRepo.findUserByEmail db input.email = none)
    (h2 : AuthRepo.findUserByEmail db email = none) :
    AuthService.login cfg db input now tok =
      ⟨.error ⟨.Unauthorized, "Invalid credentials"⟩, db, 0⟩ ∧
    AuthService.forgotPassword cfg db email now tok2 = (db, 0) := by
  constructor
  · rw [AuthService.login, h1]
  · rw [AuthService.forgotPassword, h2]

/-- C1 witness: the amended statement at a concrete absent email. -/
theorem c1_no_dummy_verify_witness :
    AuthService.login AuthService.defaultConfig softDeletedDb
      ⟨"ghost@example.com", "pw12345".toList, none, none⟩ 1000 "t".toList =
      ⟨.error ⟨.Unauthorized, "Invalid credentials"⟩, softDeletedDb, 0⟩ ∧
    AuthService.forgotPassword AuthService.defaultConfig softDeletedDb
      "ghost@example.com" 1000 "u".toList = (softDeletedDb, 0) :=
  c1_no_dummy_verify AuthService.defaultConfig softDeletedDb
    ⟨"ghost@example.com", "pw12345".toList, none, none⟩ "ghost@example.com"
    1000 "t".toList "u".toList rfl rfl

/-! ## C2: which login failures are distinguishable -/

/-- C2 counterexample: logging in as a soft-deleted user (even with the
correct password) fails with `Forbidden` and the distinct message
"Account is disabled" — not with the generic `Unauthorized` message, so the
soft-deleted case is caller-visible. -/
theorem c2_counterexample :
    softDeletedUser.deletedAt.isSome = true ∧
      (AuthService.login AuthService.defaultConfig softDeletedDb
        ⟨"dana@example.com", "pw12345".toList, none, none⟩ 2000 "t".toList).result =
        .error ⟨.Forbidden, "Account is disabled"⟩ :=
  ⟨rfl, rfl⟩

/-- C2 (amended): `login` fails with the identical generic
`Unauthorized`/"Invalid credentials" error when the email matches no user
and when the password is wrong, but a soft-deleted user fails with
`Forbidden`/"Account is disabled", which does reveal that this case is
different. -/
theorem c2_login_distinguishes (cfg : AuthService.Config) (db : Db)
    (input : AuthService.LoginInput) (now : Nat) (tok : Str) :
    (AuthRepo.findUserByEmail db input.email = none →
      (AuthService.login cfg db input now tok).result =
        .error ⟨.Unauthorized, "Invalid credentials"⟩) ∧
    (∀ u pw, AuthRepo.findUserByEmail db input.email = some u →
      u.deletedAt = none → u.isActive = true →
      (∀ l, u.lockedUntil = some l → isAfter l now = false) →
      u.password = some pw → verifyPassword input.password pw = false →
      (AuthService.login cfg db input now tok).result =
        .error ⟨.Unauthorized, "Invalid credentials"⟩) ∧
    (∀ u, AuthRepo.findUserByEmail db input.email = some u →
      u.deletedAt.isSome = true →
      (AuthService.login cfg db input now tok).result =
        .error ⟨.Forbidden, "Account is disabled"⟩) := by
  refine ⟨?_, ?_, ?_⟩
  · intro h
    rw [AuthService.login, h]
  · intro u pw hfind hdel hact hlock hpw hverify
    have hguards : (AuthService.loginAfterGuards cfg db input u now tok).result =
        .error ⟨.Unauthorized, "Invalid credentials"⟩ := by
      rw [AuthService.loginAfterGuards, hpw]
      simp [hverify]
    rw [AuthService.login, hfind]
    cases hcase : u.lockedUntil with
    | none => simpa [hdel, hact, hcase] using hguards
    | some l => simpa [hdel, hact, hcase, hlock l hcase] using hguards
  · intro u hfind hdel
    rw [AuthService.login, hfind]
    simp [hdel]

/-- C2 witness: unknown email, wrong password for the healthy user, and the
soft-deleted user. -/
theorem c2_login_distinguishes_witness :
    (AuthService.login AuthService.defaultConfig aliceDb
      ⟨"ghost@example.com", "correct-horse".toList, none, none⟩ 1000 "t".toList).result =
      .error ⟨.Unauthorized, "Invalid credentials"⟩ ∧
    (AuthService.login AuthService.defaultConfig aliceDb
      ⟨"alice@example.com", "wrong-horse".toList, none, none⟩ 1000 "t".toList).result =
      .error ⟨.Unauthorized, "Invalid credentials"⟩ ∧
    (AuthService.login AuthService.defaultConfig softDeletedDb
      ⟨"dana@example.com", "pw12345".toList, none, none⟩ 1000 "t".toList).result =
      .error ⟨.Forbidden, "Account is disabled"⟩ :=
  ⟨(c2_login_distinguishes AuthService.defaultConfig aliceDb
      ⟨"ghost@example.com", "correct-horse".toList, none, none⟩ 1000 "t".toList).1 rfl,
   (c2_login_distinguishes AuthService.defaultConfig aliceDb
      ⟨"alice@example.com", "wrong-horse".toList, none, none⟩ 1000 "t".toList).2.1
     aliceUser aliceHash rfl rfl rfl (fun _ h => Option.noConfusion h) rfl (by decide),
   (c2_login_distinguishes AuthService.defaultConfig softDeletedDb
      ⟨"dana@example.com", "pw12345".toList, none, none⟩ 1000 "t".toList).2.2
     softDeletedUser rfl rfl⟩

/-- Wrong-password run of `login`: the exact outcome of a failed
verification for a user who passes the deleted/active/lock guards. -/
theorem login_wrongPassword_run (cfg : AuthService.Config) (db : Db)
    (input : AuthService.LoginInput) (now : Nat) (tok : Str) (u : User) (pw : Str)
    (hfind : AuthRepo.findUserByEmail db input.email = some u)
    (hdel : u.deletedAt = none) (hact : u.isActive = true)
    (hlock : ∀ l, u.lockedUntil = some l → isAfter l now = false)
    (hpw : u.password = some pw)
    (hverify : verifyPassword input.password pw = false) :
    AuthService.login cfg db input now tok =
      ⟨.error ⟨.Unauthorized, "Invalid credentials"⟩,
        AuthRepo.updateUserLoginStats db u.id
          { failedLoginAttempts := some (u.failedLoginAttempts + 1)
            lockedUntil := some (if u.failedLoginAttempts + 1 ≥ cfg.maxLoginAttempts
              then some (addMinutes now cfg.lockDurationMinutes) else none)
            lastLoginAt := none }, 1⟩ := by
  have hguards : AuthService.loginAfterGuards cfg db input u now tok =
      ⟨.error ⟨.Unauthorized, "Invalid credentials"⟩,
        AuthRepo.updateUserLoginStats db u.id
          { failedLoginAttempts := some (u.failedLoginAttempts + 1)
            lockedUntil := some (if u.failedLoginAttempts + 1 ≥ cfg.maxLoginAttempts
              then some (addMinutes now cfg.lockDurationMinutes) else none)
            lastLoginAt := none }, 1⟩ := by
    rw [AuthService.loginAfterGuards, hpw]
    simp [hverify]
  rw [AuthService.login, hfind]
  cases hcase : u.lockedUntil with
  | none => simpa [hdel, hact, hcase] using hguards
  | some l => simpa [hdel, hact, hcase, hlock l hcase] using hguards

/-- After a wrong-password run of `login`, the same email lookup finds the
user with the counter incremented and the conditional lock persisted. -/
theorem login_wrongPassword_found (cfg : AuthService.Config) (db : Db)
    (input : AuthService.LoginInput) (now : Nat) (tok : Str) (u : User) (pw : Str)
    (hfind : AuthRepo.findUserByEmail db input.email = some u)
    (hdel : u.deletedAt = none) (hact : u.isActive = true)
    (hlock : ∀ l, u.lockedUntil = some l → isAfter l now = false)
    (hpw : u.password = some pw)
    (hverify : verifyPassword input.password pw = false) :
    AuthRepo.findUserByEmail (AuthService.login cfg db input now tok).db input.email =
      some { u with
        failedLoginAttempts := u.failedLoginAttempts + 1
        lockedUntil := if u.failedLoginAttempts + 1 ≥ cfg.maxLoginAttempts
          then some (addMinutes now cfg.lockDurationMinutes) else none } := by
  rw [login_wrongPassword_run cfg db input now tok u pw hfind hdel hact hlock hpw hverify]
  simp only
  rw [AuthRepo.updateUserLoginStats, AuthRepo.findUserByEmail] at *
  have hmain := findPres_map
    (fun v => if v.id == u.id then
      AuthRepo.applyLoginStats
        { failedLoginAttempts := some (u.failedLoginAttempts + 1)
          lockedUntil := some (if u.failedLoginAttempts + 1 ≥ cfg.maxLoginAttempts
            then some (addMinutes now cfg.lockDurationMinutes) else none)
          lastLoginAt := none } v
      else v)
    (fun v => v.email == input.email) db.users
    (by
      intro x
      by_cases hx : (x.id == u.id) = true <;>
        simp [hx, AuthRepo.applyLoginStats]) u hfind
  simpa [AuthRepo.applyLoginStats] using hmain

/-! ## C3: failed-attempt counting and account lockout -/

/-- C3: a failed password verification in `login` fails `Unauthorized`,
increments the persisted failed-attempt counter by one, and sets
`lockedUntil = now + lockDuration` exactly when the new count reaches the
configured maximum; while that lock is in the future, any further login
attempt for the same email — even with the correct password — fails
`Forbidden` with zero password verifications (the lock check precedes
verification) and leaves the datastore unchanged. -/
theorem c3_login_lockout (cfg : AuthService.Config) (db : Db)
    (input : AuthService.LoginInput) (now : Nat) (tok : Str) (u : User) (pw : Str)
    (hfind : AuthRepo.findUserByEmail db input.email = some u)
    (hdel : u.deletedAt = none) (hact : u.isActive = true)
    (hlock : ∀ l, u.lockedUntil = some l → isAfter l now = false)
    (hpw : u.password = some pw)
    (hverify : verifyPassword input.password pw = false) :
    (AuthService.login cfg db input now tok).result =
      .error ⟨.Unauthorized, "Invalid credentials"⟩ ∧
    (AuthService.login cfg db input now tok).verifyCalls = 1 ∧
    AuthRepo.findUserByEmail (AuthService.login cfg db input now tok).db input.email =
      some { u with
        failedLoginAttempts := u.failedLoginAttempts + 1
        lockedUntil := if u.failedLoginAttempts + 1 ≥ cfg.maxLoginAttempts
          then some (addMinutes now cfg.lockDurationMinutes) else none } ∧
    (u.failedLoginAttempts + 1 ≥ cfg.maxLoginAttempts →
      ∀ (input2 : AuthService.LoginInput) (now' : Nat) (tok' : Str),
        input2.email = input.email →
        isAfter (addMinutes now cfg.lockDurationMinutes) now' = true →
        AuthService.login cfg (AuthService.login cfg db input now tok).db input2 now' tok' =
          ⟨.error ⟨.Forbidden,
              AuthService.lockedMessage (addMinutes now cfg.lockDurationMinutes)⟩,
            (AuthService.login cfg db input now tok).db, 0⟩) := by
  have hrun := login_wrongPassword_run cfg db input now tok u pw hfind hdel hact hlock hpw hverify
  have hfound := login_wrongPassword_found cfg db input now tok u pw hfind hdel hact hlock hpw hverify
  refine ⟨by rw [hrun], by rw [hrun], hfound, ?_⟩
  intro hmax input2 now' tok' hemail hfuture
  rw [if_pos hmax] at hfound
  have hfind2 : AuthRepo.findUserByEmail (AuthService.login cfg db input now tok).db input2.email =
      some { u with
        failedLoginAttempts := u.failedLoginAttempts + 1
        lockedUntil := some (addMinutes now cfg.lockDurationMinutes) } := by
    rw [hemail]
    exact hfound
  rw [AuthService.login, hfind2]
  simp [hdel, hact, hfuture]

/-- C3 witness: the fifth consecutive failure for Bob locks the account until
901000 (= 1000 + 15 minutes), and a later attempt with the correct password
fails `Forbidden` without any verification. -/
theorem c3_login_lockout_witness :
    (AuthService.login AuthService.defaultConfig bobDb
      ⟨"bob@example.com", "wrong-pw".toList, none, none⟩ 1000 "t".toList).result =
      .error ⟨.Unauthorized, "Invalid credentials"⟩ ∧
    (AuthService.login AuthService.defaultConfig bobDb
      ⟨"bob@example.com", "wrong-pw".toList, none, none⟩ 1000 "t".toList).verifyCalls = 1 ∧
    AuthService.login AuthService.defaultConfig
      (AuthService.login AuthService.defaultConfig bobDb
        ⟨"bob@example.com", "wrong-pw".toList, none, none⟩ 1000 "t".toList).db
      ⟨"bob@example.com", "right-pw".toList, none, none⟩ 2000 "s".toList =
      ⟨.error ⟨.Forbidden, AuthService.lockedMessage (addMinutes 1000 15)⟩,
        (AuthService.login AuthService.defaultConfig bobDb
          ⟨"bob@example.com", "wrong-pw".toList, none, none⟩ 1000 "t".toList).db, 0⟩ :=
  have h := c3_login_lockout AuthService.defaultConfig bobDb
    ⟨"bob@example.com", "wrong-pw".toList, none, none⟩ 1000 "t".toList bobUser bobHash
    rfl rfl rfl (fun _ hx => Option.noConfusion hx) rfl (by decide)
  ⟨h.1, h.2.1,
    h.2.2.2 (by decide) ⟨"bob@example.com", "right-pw".toList, none, none⟩ 2000 "s".toList
      rfl (by decide)⟩

/-! ## C10: no counter reset on lock expiry; immediate relock -/

/-- C10: the failed-login counter is not reset by the mere passage of
`lockedUntil` — `verifyEmail`, `forgotPassword` and `refresh` never change
the counter of any user, and a failed login increments it — so a user whose
counter already reached the configured maximum and whose lock has elapsed
is immediately relocked for the full lock duration by a single further
failed password attempt. -/
theorem c10_relock_after_elapsed_lock (cfg : AuthService.Config) (db : Db)
    (input : AuthService.LoginInput) (now : Nat) (tok : Str) (u : User) (pw : Str) (l : Nat)
    (hfind : AuthRepo.findUserByEmail db input.email = some u)
    (hdel : u.deletedAt = none) (hact : u.isActive = true)
    (hlockSome : u.lockedUntil = some l) (helapsed : isAfter l now = false)
    (hpw : u.password = some pw)
    (hverify : verifyPassword input.password pw = false)
    (hge : u.failedLoginAttempts ≥ cfg.maxLoginAttempts) :
    (AuthService.login cfg db input now tok).result =
      .error ⟨.Unauthorized, "Invalid credentials"⟩ ∧
    AuthRepo.findUserByEmail (AuthService.login cfg db input now tok).db input.email =
      some { u with
        failedLoginAttempts := u.failedLoginAttempts + 1
        lockedUntil := some (addMinutes now cfg.lockDurationMinutes) } ∧
    (∀ token now₂,
      (AuthService.verifyEmail db token now₂).2.users.map User.failedLoginAttempts =
        db.users.map User.failedLoginAttempts) ∧
    (∀ email now₂ ft, (AuthService.forgotPassword cfg db email now₂ ft).1.users = db.users) ∧
    (∀ rin now₂ ft, (AuthService.refresh cfg db rin now₂ ft).2.users = db.users) := by
  have hlock : ∀ l', u.lockedUntil = some l' → isAfter l' now = false := by
    intro l' h'
    rw [hlockSome] at h'
    cases h'
    exact helapsed
  have hrun := login_wrongPassword_run cfg db input now tok u pw hfind hdel hact hlock hpw hverify
  have hfound := login_wrongPassword_found cfg db input now tok u pw hfind hdel hact hlock hpw hverify
  rw [if_pos (by omega : u.failedLoginAttempts + 1 ≥ cfg.maxLoginAttempts)] at hfound
  refine ⟨by rw [hrun], hfound, ?_, ?_, ?_⟩
  · intro token now₂
    rw [AuthService.verifyEmail]
    cases h : AuthRepo.findEmailVerificationToken db (hashToken token) with
    | none => rfl
    | some tr =>
      by_cases h1 : tr.usedAt.isSome = true
      · simp [h1]
      · by_cases h2 : isAfter now₂ tr.expiresAt = true
        · simp [h1, h2]
        · simp only [h1, h2, Bool.false_eq_true, if_false]
          rw [AuthRepo.verifyEmail]
          simp only [List.map_map]
          refine List.map_congr_left ?_
          intro a _
          by_cases ha : a.id = tr.userId <;> simp [ha]
  · intro email now₂ ft
    rw [AuthService.forgotPassword]
    cases h : AuthRepo.findUserByEmail db email with
    | none => rfl
    | some v => simp [AuthRepo.createPasswordResetToken]
  · intro rin now₂ ft
    rw [AuthService.refresh]
    cases h : AuthRepo.findSessionByHash db (hashToken rin.refreshToken) with
    | none => rfl
    | some s =>
      by_cases h1 : isAfter now₂ s.expiresAt = true
      · simp [h1]
      · by_cases h2 : (s.revokedAt.isSome || s.deletedAt.isSome) = true
        · simp [h1, h2]
        · simp only [h1, h2, Bool.false_eq_true, if_false]
          rw [AuthRepo.rotateSession, AuthRepo.revokeSession, AuthRepo.createSession]

/-- C10 witness: Carol (counter 5 ≥ max 5, lock elapsed at 500) is relocked
until 901000 by one further failed attempt at time 1000. -/
theorem c10_relock_after_elapsed_lock_witness :
    (AuthService.login AuthService.defaultConfig carolDb
      ⟨"carol@example.com", "nope".toList, none, none⟩ 1000 "t".toList).result =
      .error ⟨.Unauthorized, "Invalid credentials"⟩ ∧
    AuthRepo.findUserByEmail
      (AuthService.login AuthService.defaultConfig carolDb
        ⟨"carol@example.com", "nope".toList, none, none⟩ 1000 "t".toList).db
      "carol@example.com" =
      some { carolUser with
        failedLoginAttempts := 6
        lockedUntil := some (addMinutes 1000 15) } ∧
    (AuthService.verifyEmail carolDb "x".toList 42).2.users.map User.failedLoginAttempts =
      carolDb.users.map User.failedLoginAttempts ∧
    (AuthService.forgotPassword AuthService.defaultConfig carolDb "y" 42 "ft".toList).1.users =
      carolDb.users ∧
    (AuthService.refresh AuthService.defaultConfig carolDb
      ⟨"z".toList, none, none⟩ 42 "ft".toList).2.users = carolDb.users :=
  have h := c10_relock_after_elapsed_lock AuthService.defaultConfig carolDb
    ⟨"carol@example.com", "nope".toList, none, none⟩ 1000 "t".toList carolUser carolHash 500
    rfl rfl rfl rfl (by decide) rfl (by decide) (by decide)
  ⟨h.1, h.2.1, h.2.2.1 "x".toList 42, h.2.2.2.1 "y" 42 "ft".toList,
    h.2.2.2.2 ⟨"z".toList, none, none⟩ 42 "ft".toList⟩

/-! ## C4: refresh rotation is single-use -/

theorem hashToken_inj {a b : Str} (h : hashToken a = hashToken b) : a = b := by
  rw [hashToken, hashToken] at h
  exact List.append_cancel_left h

/-- The revocation map of `rotateSession` never changes the token hash of a
session. -/
theorem revokeIf_hash (x s : UserSession) (t : Nat) :
    (if x.id == s.id then { x with revokedAt := some t } else x).refreshTokenHash =
      x.refreshTokenHash := by
  by_cases hid : (x.id == s.id) = true <;> simp [hid]

/-- C4: a valid refresh revokes the old session and creates exactly one new
session carrying a freshly generated token, returns that fresh token (which
differs from the input), and a second refresh with the same raw token fails
with `Unauthorized`. -/
theorem c4_refresh_single_use (cfg : AuthService.Config) (db : Db)
    (input : AuthService.RefreshInput) (now : Nat) (newTok : Str) (s : UserSession)
    (hfind : AuthRepo.findSessionByHash db (hashToken input.refreshToken) = some s)
    (hexp : isAfter now s.expiresAt = false)
    (huniq : ∀ s' ∈ db.sessions, s'.refreshTokenHash = hashToken input.refreshToken → s' = s)
    (hfreshHash : ∀ s' ∈ db.sessions, s'.refreshTokenHash ≠ hashToken newTok)
    (hfresh : newTok ≠ input.refreshToken) :
    (AuthService.refresh cfg db input now newTok).1 =
      .ok ⟨⟨s.userId, db.nextSessionId, "user"⟩, newTok⟩ ∧
    (AuthService.refresh cfg db input now newTok).2.sessions.length =
      db.sessions.length + 1 ∧
    AuthRepo.findSessionByHash (AuthService.refresh cfg db input now newTok).2
        (hashToken newTok) =
      some { id := db.nextSessionId
             userId := s.userId
             refreshTokenHash := hashToken newTok
             userAgent := input.userAgent.orElse (fun _ => s.userAgent)
             ipAddress := input.ipAddress.orElse (fun _ => s.ipAddress)
             expiresAt := addDays now cfg.refreshTokenExpiresDays
             revokedAt := none
             deletedAt := none } ∧
    AuthRepo.findSessionByHash (AuthService.refresh cfg db input now newTok).2
        (hashToken input.refreshToken) = none ∧
    (∀ (input2 : AuthService.RefreshInput) (now₂ : Nat) (tok₂ : Str),
      input2.refreshToken = input.refreshToken →
      AuthService.refresh cfg (AuthService.refresh cfg db input now newTok).2 input2 now₂ tok₂ =
        (.error ⟨.Unauthorized, "Invalid refresh token"⟩,
          (AuthService.refresh cfg db input now newTok).2)) := by
  have hsprops := List.find?_some hfind
  rw [AuthRepo.findSessionByHash] at hfind
  obtain ⟨⟨hhash, hrev⟩, hdel⟩ :
      ((s.refreshTokenHash == hashToken input.refreshToken) = true ∧
        (s.revokedAt == none) = true) ∧ (s.deletedAt == none) = true := by
    simpa [Bool.and_eq_true] using hsprops
  rw [beq_iff_eq] at hhash hrev hdel
  have hrun : AuthService.refresh cfg db input now newTok =
      (.ok ⟨⟨s.userId, db.nextSessionId, "user"⟩, newTok⟩,
        { db with
          sessions := db.sessions.map (fun x =>
              if x.id == s.id then { x with revokedAt := some now } else x) ++
            [{ id := db.nextSessionId
               userId := s.userId
               refreshTokenHash := hashToken newTok
               userAgent := input.userAgent.orElse (fun _ => s.userAgent)
               ipAddress := input.ipAddress.orElse (fun _ => s.ipAddress)
               expiresAt := addDays now cfg.refreshTokenExpiresDays
               revokedAt := none
               deletedAt := none }]
          nextSessionId := db.nextSessionId + 1 }) := by
    rw [AuthService.refresh, AuthRepo.findSessionByHash, hfind]
    simp [hexp, hrev, hdel, AuthRepo.rotateSession, AuthRepo.revokeSession,
      AuthRepo.createSession]
  have hfindNew : AuthRepo.findSessionByHash (AuthService.refresh cfg db input now newTok).2
      (hashToken newTok) =
      some { id := db.nextSessionId
             userId := s.userId
             refreshTokenHash := hashToken newTok
             userAgent := input.userAgent.orElse (fun _ => s.userAgent)
             ipAddress := input.ipAddress.orElse (fun _ => s.ipAddress)
             expiresAt := addDays now cfg.refreshTokenExpiresDays
             revokedAt := none
             deletedAt := none } := by
    rw [hrun, AuthRepo.findSessionByHash]
    simp only
    rw [findAppend]
    have hleft : (db.sessions.map (fun x =>
        if x.id == s.id then { x with revokedAt := some now } else x)).find?
        (fun x => x.refreshTokenHash == hashToken newTok &&
          x.revokedAt == none && x.deletedAt == none) = none := by
      rw [List.find?_eq_none]
      intro a ha
      obtain ⟨x, hx, rfl⟩ := List.mem_map.mp ha
      intro hcon
      rw [Bool.and_eq_true, Bool.and_eq_true] at hcon
      have h1 := hcon.1.1
      rw [revokeIf_hash, beq_iff_eq] at h1
      exact hfreshHash x hx h1
    rw [hleft]
    simp [Option.orElse, List.find?]
  have hfindOld : AuthRepo.findSessionByHash (AuthService.refresh cfg db input now newTok).2
      (hashToken input.refreshToken) = none := by
    rw [hrun, AuthRepo.findSessionByHash]
    simp only
    rw [findAppend]
    have hleft : (db.sessions.map (fun x =>
        if x.id == s.id then { x with revokedAt := some now } else x)).find?
        (fun x => x.refreshTokenHash == hashToken input.refreshToken &&
          x.revokedAt == none && x.deletedAt == none) = none := by
      rw [List.find?_eq_none]
      intro a ha
      obtain ⟨x, hx, rfl⟩ := List.mem_map.mp ha
      intro hcon
      rw [Bool.and_eq_true, Bool.and_eq_true] at hcon
      have h1 := hcon.1.1
      rw [revokeIf_hash, beq_iff_eq] at h1
      have hxs := huniq x hx h1
      subst hxs
      have h2 := hcon.1.2
      rw [if_pos (by simp : (x.id == x.id) = true)] at h2
      simp at h2
    rw [hleft]
    have hne : (hashToken newTok == hashToken input.refreshToken) = false := by
      rw [beq_eq_false_iff_ne]
      intro hcc
      exact hfresh (hashToken_inj hcc)
    simp [Option.orElse, List.find?, hne]
  refine ⟨by rw [hrun], by rw [hrun]; simp, hfindNew, hfindOld, ?_⟩
  intro input2 now₂ tok₂ heq
  rw [AuthService.refresh, AuthRepo.findSessionByHash, heq]
  rw [AuthRepo.findSessionByHash] at hfindOld
  rw [hfindOld]

/-- C4 witness: rotating the session of Alice with fresh token "refresh-2" at
time 1000, then replaying "refresh-1". -/
theorem c4_refresh_single_use_witness :
    (AuthService.refresh AuthService.defaultConfig sessionDb
      ⟨"refresh-1".toList, none, none⟩ 1000 "refresh-2".toList).1 =
      .ok ⟨⟨4, 11, "user"⟩, "refresh-2".toList⟩ ∧
    (AuthService.refresh AuthService.defaultConfig sessionDb
      ⟨"refresh-1".toList, none, none⟩ 1000 "refresh-2".toList).2.sessions.length = 2 ∧
    AuthRepo.findSessionByHash
      (AuthService.refresh AuthService.defaultConfig sessionDb
        ⟨"refresh-1".toList, none, none⟩ 1000 "refresh-2".toList).2
      (hashToken "refresh-2".toList) =
      some { id := 11
             userId := 4
             refreshTokenHash := hashToken "refresh-2".toList
             userAgent := none
             ipAddress := none
             expiresAt := addDays 1000 7
             revokedAt := none
             deletedAt := none } ∧
    AuthRepo.findSessionByHash
      (AuthService.refresh AuthService.defaultConfig sessionDb
        ⟨"refresh-1".toList, none, none⟩ 1000 "refresh-2".toList).2
      (hashToken "refresh-1".toList) = none ∧
    AuthService.refresh AuthService.defaultConfig
      (AuthService.refresh AuthService.defaultConfig sessionDb
        ⟨"refresh-1".toList, none, none⟩ 1000 "refresh-2".toList).2
      ⟨"refresh-1".toList, none, none⟩ 2000 "refresh-3".toList =
      (.error ⟨.Unauthorized, "Invalid refresh token"⟩,
        (AuthService.refresh AuthService.defaultConfig sessionDb
          ⟨"refresh-1".toList, none, none⟩ 1000 "refresh-2".toList).2) :=
  have h := c4_refresh_single_use AuthService.defaultConfig sessionDb
    ⟨"refresh-1".toList, none, none⟩ 1000 "refresh-2".toList aliceSession rfl (by decide)
    (fun s' hs' _ => by simpa [sessionDb] using hs')
    (by intro s' hs'; simp only [sessionDb, List.mem_singleton] at hs'; subst hs'; decide)
    (by decide)
  ⟨h.1, h.2.1, h.2.2.1, h.2.2.2.1,
    h.2.2.2.2 ⟨"refresh-1".toList, none, none⟩ 2000 "refresh-3".toList rfl⟩

/-! ## C5: resetPassword rewrites credentials and revokes all sessions -/

/-- The mass-revocation map of the reset transaction never changes a
token hash of any session. -/
theorem resetRevoke_hash (y : UserSession) (uid t : Nat) :
    (if y.userId == uid && y.revokedAt == none then { y with revokedAt := some t }
      else y).refreshTokenHash = y.refreshTokenHash := by
  by_cases h : (y.userId == uid && y.revokedAt == none) = true <;> simp [h]

/-- C5: a successful `resetPassword` with an unused, unexpired token
updates the stored password hash and password-changed timestamp, zeroes the
failed-attempt counter, clears the lock, marks the token used (so a second
use fails with `Validation`), and revokes every session of that user whose
`revokedAt` was null — making a refresh with any pre-reset token fail with
`Unauthorized`. -/
theorem c5_resetPassword (cfg : AuthService.Config) (db : Db) (raw newPw : Str)
    (now salt : Nat) (prt : PasswordResetToken) (u : User)
    (htok : db.resetTokens.find? (fun t => t.tokenHash == hashToken raw) = some prt)
    (huser : db.users.find? (fun v => v.id == prt.userId) = some u)
    (hunused : prt.usedAt = none)
    (hexp : isAfter now prt.expiresAt = false) :
    (AuthService.resetPassword db raw newPw now salt).1 = .ok () ∧
    AuthRepo.findUserById (AuthService.resetPassword db raw newPw now salt).2 u.id =
      some { u with
        password := some (hashPassword salt newPw)
        passwordChangedAt := some now
        failedLoginAttempts := 0
        lockedUntil := none } ∧
    (AuthService.resetPassword db raw newPw now salt).2.resetTokens.find?
        (fun t => t.tokenHash == hashToken raw) = some { prt with usedAt := some now } ∧
    (∀ newPw₂ now₂ salt₂,
      AuthService.resetPassword (AuthService.resetPassword db raw newPw now salt).2
          raw newPw₂ now₂ salt₂ =
        (.error ⟨.Validation, "Invalid or expired reset token"⟩,
          (AuthService.resetPassword db raw newPw now salt).2)) ∧
    (∀ x ∈ (AuthService.resetPassword db raw newPw now salt).2.sessions,
      x.userId = u.id → x.revokedAt ≠ none) ∧
    (∀ (rt : Str) (s : UserSession),
      AuthRepo.findSessionByHash db (hashToken rt) = some s →
      s.userId = u.id →
      (∀ s' ∈ db.sessions, s'.refreshTokenHash = hashToken rt → s' = s) →
      ∀ (rin : AuthService.RefreshInput) (now₂ : Nat) (tok₂ : Str),
        rin.refreshToken = rt →
        AuthService.refresh cfg (AuthService.resetPassword db raw newPw now salt).2
            rin now₂ tok₂ =
          (.error ⟨.Unauthorized, "Invalid refresh token"⟩,
            (AuthService.resetPassword db raw newPw now salt).2)) := by
  have hid : u.id = prt.userId := by
    have := List.find?_some huser
    simpa [beq_iff_eq] using this
  have huser' : db.users.find? (fun v => v.id == u.id) = some u := by
    rw [hid]
    exact huser
  have hfindPRT : AuthRepo.findPasswordResetToken db (hashToken raw) = some (prt, u) := by
    rw [AuthRepo.findPasswordResetToken, htok]
    simp only
    rw [huser]
  have hrun : AuthService.resetPassword db raw newPw now salt =
      (.ok (), AuthRepo.resetPassword db u.id prt.id (hashPassword salt newPw) now) := by
    rw [AuthService.resetPassword, hfindPRT]
    simp [hunused, hexp]
  have huserAfter : AuthRepo.findUserById
      (AuthService.resetPassword db raw newPw now salt).2 u.id =
      some { u with
        password := some (hashPassword salt newPw)
        passwordChangedAt := some now
        failedLoginAttempts := 0
        lockedUntil := none } := by
    rw [hrun]
    rw [AuthRepo.resetPassword, AuthRepo.findUserById]
    simp only
    have hmain := findPres_map
      (fun v => if v.id == u.id then
        { v with
          password := some (hashPassword salt newPw)
          passwordChangedAt := some now
          failedLoginAttempts := 0
          lockedUntil := none }
        else v)
      (fun v => v.id == u.id) db.users
      (by
        intro x
        by_cases hx : (x.id == u.id) = true <;> simp [hx]) u huser'
    simpa using hmain
  have htokAfter : (AuthService.resetPassword db raw newPw now salt).2.resetTokens.find?
      (fun t => t.tokenHash == hashToken raw) = some { prt with usedAt := some now } := by
    rw [hrun]
    rw [AuthRepo.resetPassword]
    simp only
    have hmain := findPres_map
      (fun t => if t.id == prt.id then { t with usedAt := some now } else t)
      (fun t => t.tokenHash == hashToken raw) db.resetTokens
      (by
        intro x
        by_cases hx : (x.id == prt.id) = true <;> simp [hx]) prt htok
    simpa using hmain
  have huser2After : (AuthService.resetPassword db raw newPw now salt).2.users.find?
      (fun v => v.id == prt.userId) =
      some { u with
        password := some (hashPassword salt newPw)
        passwordChangedAt := some now
        failedLoginAttempts := 0
        lockedUntil := none } := by
    rw [← hid]
    rw [AuthRepo.findUserById] at huserAfter
    exact huserAfter
  refine ⟨by rw [hrun], huserAfter, htokAfter, ?_, ?_, ?_⟩
  · intro newPw₂ now₂ salt₂
    rw [AuthService.resetPassword, AuthRepo.findPasswordResetToken, htokAfter]
    simp only
    rw [huser2After]
    simp
  · intro x hx hxu
    rw [hrun] at hx
    rw [AuthRepo.resetPassword] at hx
    simp only [List.mem_map] at hx
    obtain ⟨y, hy, rfl⟩ := hx
    by_cases hc : (y.userId == u.id && y.revokedAt == none) = true
    · simp [hc]
    · rw [if_neg hc]
      rw [if_neg hc] at hxu
      intro hnone
      exact hc (by simp [hxu, hnone])
  · intro rt s hfindS hsu huniq rin now₂ tok₂ heq
    have hsprops := List.find?_some hfindS
    obtain ⟨⟨hshash, hsrev⟩, hsdel⟩ :
        ((s.refreshTokenHash == hashToken rt) = true ∧
          (s.revokedAt == none) = true) ∧ (s.deletedAt == none) = true := by
      simpa [Bool.and_eq_true] using hsprops
    rw [beq_iff_eq] at hshash hsrev hsdel
    have hnone : AuthRepo.findSessionByHash
        (AuthService.resetPassword db raw newPw now salt).2 (hashToken rt) = none := by
      rw [hrun, AuthRepo.findSessionByHash, AuthRepo.resetPassword]
      simp only
      rw [List.find?_eq_none]
      intro a ha
      obtain ⟨y, hy, rfl⟩ := List.mem_map.mp ha
      intro hcon
      rw [Bool.and_eq_true, Bool.and_eq_true] at hcon
      have h1 := hcon.1.1
      rw [resetRevoke_hash, beq_iff_eq] at h1
      have hys := huniq y hy h1
      subst hys
      have h2 := hcon.1.2
      rw [if_pos (by simp [hsu, hsrev] : (y.userId == u.id && y.revokedAt == none) = true)] at h2
      simp at h2
    rw [AuthService.refresh, AuthRepo.findSessionByHash, heq]
    rw [AuthRepo.findSessionByHash] at hnone
    rw [hnone]

/-- C5 witness: resetting the password of Alice at time 1000 with token
"reset-1" rewrites her credentials, consumes the token, and kills the
pre-reset session "refresh-1". -/
theorem c5_resetPassword_witness :
    (AuthService.resetPassword resetDb "reset-1".toList "new-pass".toList 1000 7).1 =
      .ok () ∧
    AuthRepo.findUserById
      (AuthService.resetPassword resetDb "reset-1".toList "new-pass".toList 1000 7).2 4 =
      some { aliceUser with
        password := some (hashPassword 7 "new-pass".toList)
        passwordChangedAt := some 1000
        failedLoginAttempts := 0
        lockedUntil := none } ∧
    (AuthService.resetPassword resetDb "reset-1".toList "new-pass".toList
        1000 7).2.resetTokens.find?
        (fun t => t.tokenHash == hashToken "reset-1".toList) =
      some { aliceResetToken with usedAt := some 1000 } ∧
    AuthService.resetPassword
      (AuthService.resetPassword resetDb "reset-1".toList "new-pass".toList 1000 7).2
      "reset-1".toList "other".toList 3000 9 =
      (.error ⟨.Validation, "Invalid or expired reset token"⟩,
        (AuthService.resetPassword resetDb "reset-1".toList "new-pass".toList 1000 7).2) ∧
    AuthService.refresh AuthService.defaultConfig
      (AuthService.resetPassword resetDb "reset-1".toList "new-pass".toList 1000 7).2
      ⟨"refresh-1".toList, none, none⟩ 2000 "refresh-9".toList =
      (.error ⟨.Unauthorized, "Invalid refresh token"⟩,
        (AuthService.resetPassword resetDb "reset-1".toList "new-pass".toList 1000 7).2) :=
  have h := c5_resetPassword AuthService.defaultConfig resetDb "reset-1".toList
    "new-pass".toList 1000 7 aliceResetToken aliceUser rfl rfl rfl (by decide)
  ⟨h.1, h.2.1, h.2.2.1, h.2.2.2.1 "other".toList 3000 9,
    h.2.2.2.2.2 "refresh-1".toList aliceSession rfl rfl
      (fun s' hs' _ => by simpa [resetDb] using hs')
      ⟨"refresh-1".toList, none, none⟩ 2000 "refresh-9".toList rfl⟩
